import Mathlib

/-!
Shallow embedding of the Happy-Place-2 game core (package `internal/game`).

Go `int` is modelled as `Int`; Go integer division and remainder truncate
toward zero, so they are modelled by `Int.tdiv` / `Int.tmod`.  Go maps keyed
by player id / fight id are modelled as lists together with `find?` lookup;
mutation through a pointer held in such a map is modelled by an update of the
entry with the matching key.  Randomness (`rand.Intn n`) is modelled by an
explicit `roll` argument together with the hypothesis `roll < n`.
-/

namespace HappyPlace

/-- Go integer division: truncation toward zero. -/
def goDiv (a b : Int) : Int := Int.tdiv a b

/-- Go integer remainder: truncation toward zero. -/
def goMod (a b : Int) : Int := Int.tmod a b

/-! ### Enemy records (`enemy.go`) -/

/-- `EnemyDef` defines an enemy type's base stats. -/
structure EnemyDef where
  name : String
  maxHP : Int
  attack : Int
  defense : Int
  exp : Int
deriving DecidableEq

/-- `EnemyInstance` is a live enemy in a fight (field `Def` is `defn` here). -/
structure EnemyInstance where
  defn : EnemyDef
  hp : Int
  id : Int
  label : String
deriving DecidableEq

/-- `Alive` reports whether this enemy still has HP. -/
def EnemyInstance.alive (e : EnemyInstance) : Bool := e.hp > 0

/-- `EnemyRat` is the basic encounter enemy. -/
def EnemyRat : EnemyDef :=
  { name := "Rat", maxHP := 15, attack := 4, defense := 1, exp := 8 }

/-- `enemyLabels` generates the label of enemy `i` out of `count`:
`name` when alone, otherwise `name` plus a letter starting at A. -/
def enemyLabel (name : String) (count i : Nat) : String :=
  if count = 1 then name else name ++ " " ++ String.singleton (Char.ofNat (65 + i))

/-- `spawnEnemies` creates `count` instances of a given `EnemyDef`. -/
def spawnEnemies (defn : EnemyDef) (count : Nat) : List EnemyInstance :=
  (List.range count).map fun (i : Nat) =>
    { defn := defn, hp := defn.maxHP, id := Int.ofNat i, label := enemyLabel defn.name count i }

/-! ### Player records (`player.go`) -/

/-- Player input action (`Action` constants in `player.go`). -/
inductive Action where
  | none | up | down | left | right | quit | debug
  | debugPage1 | debugPage2 | debugPage3 | confirm | defend
  | debugCombat | debugTileOverlay
deriving DecidableEq

/-- Direction the player is facing. -/
inductive Direction where
  | down | up | left | right
deriving DecidableEq

/-- The player's current animation state. -/
inductive AnimState where
  | idle | walking
deriving DecidableEq

/-- Phase of a fight (`CombatPhase` in `combat.go`). -/
inductive CombatPhase where
  | transition | playerTurn | enemyTurn | enemyActing | victory | defeat
deriving DecidableEq

/-- `InputEvent` carries a player action into the game loop. -/
structure InputEvent where
  playerID : String
  action : Action
deriving DecidableEq

/-- `Player` holds the game state for a connected player
(`ActiveInteraction` and slide interpolation fields are omitted: they feed
rendering only and no operation embedded here reads them). -/
structure Player where
  id : String
  name : String
  x : Int
  y : Int
  color : Int
  mapName : String
  dir : Direction
  anim : AnimState
  animFrame : Int
  animTimer : Int
  animTick : Int
  moveCooldown : Int
  debugView : Bool
  debugPage : Int
  debugTileOverlay : Bool
  hp : Int
  maxHP : Int
  stamina : Int
  maxStamina : Int
  mp : Int
  maxMP : Int
  attack : Int
  defense : Int
  exp : Int
  fightID : Int
  combatTransition : Int
  defending : Bool
  dead : Bool
  combatAction : Int
  combatTarget : Int
deriving DecidableEq

def DefaultHP : Int := 30

def DefaultStamina : Int := 20

def DefaultMP : Int := 10

def DefaultAttack : Int := 6

def DefaultDefense : Int := 3

/-- `InitStats` sets default stats for a new player. -/
def Player.initStats (p : Player) : Player :=
  { p with hp := DefaultHP, maxHP := DefaultHP,
           stamina := DefaultStamina, maxStamina := DefaultStamina,
           mp := DefaultMP, maxMP := DefaultMP,
           attack := DefaultAttack, defense := DefaultDefense }

/-! ### Timing constants (`config.go`); values are `SecsToTicks s = int(s*20)`
with a floor of 1, evaluated at the 20 ticks/second rate. -/

def MoveRepeatDelay : Int := 3

def WalkAnimDuration : Int := 8

def CombatTurnTimeout : Int := 300

def CombatEnemyActDelay : Int := 20

def CombatTransitionLen : Int := 20

def CombatCoopTransLen : Int := 10

def CombatResultDelay : Int := 60

/-- `EncounterChance` is the percent chance per tall-grass step. -/
def EncounterChance : Int := 15

/-! ### Action resolvers (`combat_actions.go`) -/

def MeleeCost : Int := 5

def RangedCost : Int := 2

def MagicCost : Int := 5

/-- Result of a player attack resolver: the updated attacker and target,
the damage dealt, the log message, and whether the resource sufficed. -/
structure AttackResult where
  attacker : Player
  target : EnemyInstance
  dmg : Int
  msg : String
  ok : Bool
deriving DecidableEq

/-- `ResolveMelee` resolves a melee attack; `roll` models `rand.Intn 3`. -/
def ResolveMelee (attacker : Player) (target : EnemyInstance) (roll : Nat) : AttackResult :=
  if attacker.stamina < MeleeCost then ⟨attacker, target, 0, "", false⟩
  else
    let attacker := { attacker with stamina := attacker.stamina - MeleeCost }
    let dmg := attacker.attack + (roll : Int) - goDiv target.defn.defense 2
    let dmg := if dmg < 1 then 1 else dmg
    let hp := target.hp - dmg
    let target := { target with hp := if hp < 0 then 0 else hp }
    let msg := attacker.name ++ " slashes " ++ target.label ++ " for " ++
      toString dmg ++ " damage!"
    let msg := if !target.alive then msg ++ " " ++ target.label ++ " defeated!" else msg
    ⟨attacker, target, dmg, msg, true⟩

/-- `ResolveRanged` resolves a ranged attack; weaker but cheaper than melee. -/
def ResolveRanged (attacker : Player) (target : EnemyInstance) (roll : Nat) : AttackResult :=
  if attacker.stamina < RangedCost then ⟨attacker, target, 0, "", false⟩
  else
    let attacker := { attacker with stamina := attacker.stamina - RangedCost }
    let dmg := goDiv attacker.attack 2 + (roll : Int) - goDiv target.defn.defense 2
    let dmg := if dmg < 1 then 1 else dmg
    let hp := target.hp - dmg
    let target := { target with hp := if hp < 0 then 0 else hp }
    let msg := attacker.name ++ " shoots " ++ target.label ++ " for " ++
      toString dmg ++ " damage!"
    let msg := if !target.alive then msg ++ " " ++ target.label ++ " defeated!" else msg
    ⟨attacker, target, dmg, msg, true⟩

/-- `ResolveMagic` resolves a magic attack; `roll` models `rand.Intn 4`. -/
def ResolveMagic (attacker : Player) (target : EnemyInstance) (roll : Nat) : AttackResult :=
  if attacker.mp < MagicCost then ⟨attacker, target, 0, "", false⟩
  else
    let attacker := { attacker with mp := attacker.mp - MagicCost }
    let dmg := attacker.attack * 2 + (roll : Int) - goDiv target.defn.defense 3
    let dmg := if dmg < 1 then 1 else dmg
    let hp := target.hp - dmg
    let target := { target with hp := if hp < 0 then 0 else hp }
    let msg := attacker.name ++ " casts a spell on " ++ target.label ++ " for " ++
      toString dmg ++ " damage!"
    let msg := if !target.alive then msg ++ " " ++ target.label ++ " defeated!" else msg
    ⟨attacker, target, dmg, msg, true⟩

/-- `ResolveDefend` sets the player to defending stance; free action. -/
def ResolveDefend (p : Player) : Player × String :=
  ({ p with defending := true }, p.name ++ " braces for impact!")

/-- `ResolveEnemyAttack` resolves an enemy attacking a player; `roll` models
`rand.Intn 3`.  Returns the updated target, the damage, and the log line. -/
def ResolveEnemyAttack (enemy : EnemyInstance) (target : Player) (roll : Nat) :
    Player × Int × String :=
  let dmg := enemy.defn.attack + (roll : Int) - goDiv target.defense 2
  let dmg := if dmg < 1 then 1 else dmg
  let dmg := if target.defending then
      (let h := goDiv dmg 2; if h < 1 then 1 else h)
    else dmg
  let hp := target.hp - dmg
  let target := { target with hp := if hp < 0 then 0 else hp }
  let msg := enemy.label ++ " bites " ++ target.name ++ " for " ++
    toString dmg ++ " damage!"
  let msg := if target.defending then msg ++ " (Defended!)" else msg
  let res := if target.hp ≤ 0 then
      ({ target with dead := true }, msg ++ " " ++ target.name ++ " has fallen!")
    else (target, msg)
  (res.1, dmg, res.2)

/-! ### The player registry

`gl.players : map[string]*Player` is modelled as a `List Player` with lookup
by id; mutating the record a map entry points to is modelled by rewriting the
entries holding that id. -/

/-- Lookup in the player registry (`gl.players[pid]`). -/
def findPlayer (ps : List Player) (pid : String) : Option Player :=
  ps.find? fun p => p.id == pid

/-- Mutation of the registry record with key `pid` through its pointer. -/
def updatePlayer (ps : List Player) (pid : String) (g : Player → Player) : List Player :=
  ps.map fun p => if p.id = pid then g p else p

/-! ### Fight state (`combat.go`) -/

/-- `Fight` manages the state of a single combat encounter. -/
structure Fight where
  id : Int
  mapName : String
  round : Int
  phase : CombatPhase
  enemies : List EnemyInstance
  playerIDs : List String
  turnIndex : Int
  turnTimer : Int
  enemyIndex : Int
  enemyTimer : Int
  resultTimer : Int
  log : List String
deriving DecidableEq

def maxLogLines : Nat := 6

/-- `NewFight` creates a fight with enemies matching the player count;
unlisted Go struct fields start at their zero values. -/
def NewFight (id : Int) (mapName : String) (playerIDs : List String) : Fight :=
  { id := id, mapName := mapName, round := 1, phase := CombatPhase.transition,
    enemies := spawnEnemies EnemyRat playerIDs.length, playerIDs := playerIDs,
    turnIndex := 0, turnTimer := 0, enemyIndex := 0, enemyTimer := 0,
    resultTimer := 0, log := [] }

/-- `AddLog` appends a message to the battle log, keeping it trimmed. -/
def Fight.addLog (f : Fight) (msg : String) : Fight :=
  let lg := f.log ++ [msg]
  { f with log := if lg.length > maxLogLines then lg.drop (lg.length - maxLogLines) else lg }

/-- `CurrentTurnPlayerID` returns the player id whose turn it is, or the
empty string outside a player turn or when the index is out of range. -/
def Fight.currentTurnPlayerID (f : Fight) : String :=
  if f.phase ≠ CombatPhase.playerTurn then ""
  else if f.turnIndex < 0 ∨ f.turnIndex ≥ (f.playerIDs.length : Int) then ""
  else f.playerIDs.getD f.turnIndex.toNat ""

/-- `AllEnemiesDead` returns true if every enemy has been defeated. -/
def Fight.allEnemiesDead (f : Fight) : Bool :=
  f.enemies.all fun e => !e.alive

/-- `AllPlayersDead` checks if all players in the fight are dead. -/
def Fight.allPlayersDead (f : Fight) (players : List Player) : Bool :=
  f.playerIDs.all fun pid =>
    match findPlayer players pid with
    | some p => p.dead
    | none => true

/-- `LivingPlayerCount` returns how many players are still alive. -/
def Fight.livingPlayerCount (f : Fight) (players : List Player) : Nat :=
  f.playerIDs.countP fun pid =>
    match findPlayer players pid with
    | some p => !p.dead
    | none => false

/-- `LivingPlayers` returns the ids of living players. -/
def Fight.livingPlayers (f : Fight) (players : List Player) : List String :=
  f.playerIDs.filterMap fun pid =>
    match findPlayer players pid with
    | some p => if p.dead then Option.none else some p.id
    | none => Option.none

/-- `LivingEnemies` returns the living enemy instances. -/
def Fight.livingEnemies (f : Fight) : List EnemyInstance :=
  f.enemies.filter fun e => e.alive

/-- The scan of `NextPlayerTurn`: first index `≥ i` (into the remaining id
list `ids`, where `ids = playerIDs.drop i`) holding a connected, living
player. -/
def findLivingIdx (players : List Player) : List String → Nat → Option Nat
  | [], _ => Option.none
  | pid :: rest, i =>
    match findPlayer players pid with
    | some p => if p.dead then findLivingIdx players rest (i + 1) else some i
    | none => findLivingIdx players rest (i + 1)

/-- `NextPlayerTurn` advances to the next living player's turn within the
current round, scanning forward from `TurnIndex+1` only (no wrapping).
Returns the updated fight and registry, and false when nobody remains. -/
def Fight.nextPlayerTurn (f : Fight) (players : List Player) :
    Fight × List Player × Bool :=
  let start := (f.turnIndex + 1).toNat
  match findLivingIdx players (f.playerIDs.drop start) start with
  | some i =>
      let pid := f.playerIDs.getD i ""
      ({ f with turnIndex := (i : Int), turnTimer := CombatTurnTimeout },
       updatePlayer players pid (fun p => { p with combatAction := 0, combatTarget := 0 }),
       true)
  | none => (f, players, false)

/-- `StartEnemyPhase` begins the enemy action phase. -/
def Fight.startEnemyPhase (f : Fight) : Fight :=
  { f with phase := CombatPhase.enemyTurn, enemyIndex := 0, enemyTimer := CombatEnemyActDelay }

/-- `StartPlayerPhase` begins the player turn phase from the first living
player, clearing every participant's defending flag first. -/
def Fight.startPlayerPhase (f : Fight) (players : List Player) :
    Fight × List Player :=
  let f := { f with phase := CombatPhase.playerTurn, turnIndex := -1 }
  let players := f.playerIDs.foldl
    (fun ps pid => updatePlayer ps pid fun p => { p with defending := false }) players
  let r := f.nextPlayerTurn players
  if r.2.2 then (r.1, r.2.1) else (r.1.startEnemyPhase, r.2.1)

/-- `RemovePlayer` removes a player from the fight (on disconnect): the first
occurrence of the id is spliced out of the participant list. -/
def Fight.removePlayer (f : Fight) (playerID : String) : Fight :=
  { f with playerIDs := f.playerIDs.erase playerID }

/-- `TotalEXP` returns the total EXP from all enemies in the fight. -/
def Fight.totalEXP (f : Fight) : Int :=
  f.enemies.foldl (fun t e => t + e.defn.exp) 0

/-! ### Game-loop state (`loop.go`) -/

/-- `savedState` holds persisted player data for reconnecting players. -/
structure SavedState where
  x : Int
  y : Int
  color : Int
  mapName : String
  hp : Int
  maxHP : Int
  stamina : Int
  maxStamina : Int
  mp : Int
  maxMP : Int
  attack : Int
  defense : Int
  exp : Int
deriving DecidableEq

/-- The scheduler-owned mutable state of `GameLoop` (channels are omitted;
`saved` is the reconnection map keyed by username). -/
structure GState where
  players : List Player
  fights : List Fight
  nextFightID : Int
  saved : List (String × SavedState)
deriving DecidableEq

/-- Lookup in the fight set (`gl.fights[fid]`). -/
def findFight (fs : List Fight) (fid : Int) : Option Fight :=
  fs.find? fun f => f.id == fid

/-- Mutation of the fight record with key `fid` through its pointer. -/
def updateFight (fs : List Fight) (fid : Int) (g : Fight → Fight) : List Fight :=
  fs.map fun f => if f.id == fid then g f else f

/-- The `savedState` captured from a player on disconnect. -/
def savedOf (p : Player) : SavedState :=
  { x := p.x, y := p.y, color := p.color, mapName := p.mapName,
    hp := p.hp, maxHP := p.maxHP, stamina := p.stamina, maxStamina := p.maxStamina,
    mp := p.mp, maxMP := p.maxMP, attack := p.attack, defense := p.defense,
    exp := p.exp }

/-- `GameLoop.RemovePlayer`: saves the player's state (overwriting any prior
save under the same username), splices them out of their fight if any, and
unregisters them (the render-channel close is transport-level and omitted). -/
def glRemovePlayer (st : GState) (id : String) : GState :=
  match findPlayer st.players id with
  | none => st
  | some p =>
      let saved := (p.name, savedOf p) :: st.saved.filter fun kv => kv.1 ≠ p.name
      let fights :=
        if p.fightID ≠ 0 then updateFight st.fights p.fightID fun f => f.removePlayer p.id
        else st.fights
      { st with players := st.players.filter fun q => q.id ≠ id,
                fights := fights, saved := saved }

/-! ### Victory / defeat resolution and the result-screen tick branches -/

/-- The per-participant mutation of `resolveFightVictory`: surviving players
gain the fight's total EXP, then every participant's combat linkage is
cleared. -/
def victoryUpd (totalEXP : Int) (p : Player) : Player :=
  let p := if !p.dead then { p with exp := p.exp + totalEXP } else p
  { p with fightID := 0, dead := false, defending := false,
           combatAction := 0, combatTarget := 0, combatTransition := 0 }

/-- `resolveFightVictory` awards EXP and returns players to the overworld. -/
def resolveFightVictory (fight : Fight) (players : List Player) : List Player :=
  fight.playerIDs.foldl
    (fun ps pid => updatePlayer ps pid (victoryUpd fight.totalEXP)) players

/-- The per-participant mutation of `resolveFightDefeat`: combat linkage
cleared, stats fully restored, relocated to the spawn point. -/
def defeatUpd (spawnMap : String) (spawnX spawnY : Int) (p : Player) : Player :=
  { p with fightID := 0, dead := false, defending := false,
           combatAction := 0, combatTarget := 0, combatTransition := 0,
           hp := p.maxHP, stamina := p.maxStamina, mp := p.maxMP,
           mapName := spawnMap, x := spawnX, y := spawnY }

/-- `resolveFightDefeat` respawns all players at the world spawn point with
full stats; the spawn point is the World collaborator's `SpawnPoint()`. -/
def resolveFightDefeat (spawnMap : String) (spawnX spawnY : Int)
    (fight : Fight) (players : List Player) : List Player :=
  fight.playerIDs.foldl
    (fun ps pid => updatePlayer ps pid (defeatUpd spawnMap spawnX spawnY)) players

/-- The `PhaseVictory` branch of `tickCombat`: decrement the result timer;
once it reaches zero, resolve the victory and mark the fight finished (it is
deleted from `gl.fights` at the end of the pass).  The returned flag is that
deletion mark. -/
def tickFightVictory (fight : Fight) (players : List Player) :
    Fight × List Player × Bool :=
  let fight := { fight with resultTimer := fight.resultTimer - 1 }
  if fight.resultTimer ≤ 0 then (fight, resolveFightVictory fight players, true)
  else (fight, players, false)

/-- The `PhaseDefeat` branch of `tickCombat`, analogous to victory. -/
def tickFightDefeat (spawnMap : String) (spawnX spawnY : Int)
    (fight : Fight) (players : List Player) : Fight × List Player × Bool :=
  let fight := { fight with resultTimer := fight.resultTimer - 1 }
  if fight.resultTimer ≤ 0 then
    (fight, resolveFightDefeat spawnMap spawnX spawnY fight players, true)
  else (fight, players, false)

/-! ### Combat input (`processCombatInput` / `advanceCombatTurn`) -/

/-- `advanceCombatTurn` moves to the next player or the enemy phase, or to
victory if all enemies just died. -/
def advanceCombatTurn (fight : Fight) (players : List Player) :
    Fight × List Player :=
  if fight.allEnemiesDead then
    (({ fight with phase := CombatPhase.victory, resultTimer := CombatResultDelay
      }).addLog "Victory! All enemies defeated!", players)
  else
    let r := fight.nextPlayerTurn players
    if r.2.2 then (r.1, r.2.1) else (r.1.startEnemyPhase, r.2.1)

/-- Placeholder for the always-in-bounds Go indexing `livingEnemies[i]`. -/
def dummyEnemy : EnemyInstance :=
  { defn := { name := "", maxHP := 0, attack := 0, defense := 0, exp := 0 },
    hp := 0, id := 0, label := "" }

/-- `processCombatInput` handles input for a player in combat.  `player` is
the registry record `ev.PlayerID` resolves to (the Go code receives the
pointer to it); `roll` models the attack roll of the resolver invoked, if
any.  Returns the updated registry and fight set. -/
def processCombatInput (players : List Player) (fights : List Fight)
    (player : Player) (action : Action) (roll : Nat) :
    List Player × List Fight :=
  match findFight fights player.fightID with
  | none => (players, fights)
  | some fight =>
    if fight.phase ≠ CombatPhase.playerTurn then (players, fights)
    else if player.combatTransition > 0 then (players, fights)
    else if player.dead then (players, fights)
    else if fight.currentTurnPlayerID ≠ player.id then (players, fights)
    else
      let livingEnemies := fight.livingEnemies
      if livingEnemies.length = 0 then (players, fights)
      else
        match action with
        | Action.debugPage1 =>
            (updatePlayer players player.id (fun p => { p with combatAction := 1 }), fights)
        | Action.debugPage2 =>
            (updatePlayer players player.id (fun p => { p with combatAction := 2 }), fights)
        | Action.debugPage3 =>
            (updatePlayer players player.id (fun p => { p with combatAction := 3 }), fights)
        | Action.defend =>
            let r := ResolveDefend player
            let players := updatePlayer players player.id fun _ => r.1
            let fight := fight.addLog r.2
            let a := advanceCombatTurn fight players
            (a.2, updateFight fights player.fightID fun _ => a.1)
        | Action.left =>
            (updatePlayer players player.id (fun p =>
              if p.combatTarget > 0 then { p with combatTarget := p.combatTarget - 1 }
              else { p with combatTarget := (livingEnemies.length : Int) - 1 }), fights)
        | Action.right =>
            (updatePlayer players player.id (fun p =>
              { p with combatTarget := goMod (p.combatTarget + 1) (livingEnemies.length : Int) }),
             fights)
        | Action.confirm =>
            if player.combatAction = 0 then (players, fights)
            else
              let player :=
                if player.combatTarget ≥ (livingEnemies.length : Int) then
                  { player with combatTarget := 0 }
                else player
              let players := updatePlayer players player.id fun _ => player
              let target := livingEnemies.getD player.combatTarget.toNat dummyEnemy
              let r :=
                if player.combatAction = 1 then ResolveMelee player target roll
                else if player.combatAction = 2 then ResolveRanged player target roll
                else if player.combatAction = 3 then ResolveMagic player target roll
                else { attacker := player, target := target, dmg := 0, msg := "", ok := false }
              if !r.ok then (players, fights)
              else
                let fight := { fight with
                  enemies := (fight.enemies.map fun (e : EnemyInstance) =>
                    if e.id == r.target.id then r.target else e) }
                let fight := fight.addLog r.msg
                let players := updatePlayer players player.id fun _ =>
                  { r.attacker with combatAction := 0 }
                let a := advanceCombatTurn fight players
                (a.2, updateFight fights player.fightID fun _ => a.1)
        | _ => (players, fights)

/-! ### Movement / overworld input (`processInput` and helpers) -/

/-- A portal placed on a map (`maps.Portal`). -/
structure Portal where
  x : Int
  y : Int
  targetMap : String
  targetX : Int
  targetY : Int
deriving DecidableEq

/-- The read-only World collaborator: walkability, portals, tile terrain
names (`GetMap(m).TileAt(x,y).Name`, `none` when the map is unknown), and
the spawn point. -/
structure WorldM where
  canMoveTo : String → Int → Int → Bool
  portalAt : String → Int → Int → Option Portal
  tileNameAt : String → Int → Int → Option String
  spawnMap : String
  spawnX : Int
  spawnY : Int

/-- The direction a directional action requests, `none` otherwise
(the `switch ev.Action` of `processInput`). -/
def dirOfAction : Action → Option Direction
  | Action.up => some Direction.up
  | Action.down => some Direction.down
  | Action.left => some Direction.left
  | Action.right => some Direction.right
  | _ => Option.none

/-- One tile step in a direction (the `newX, newY` switch). -/
def stepDir (x y : Int) : Direction → Int × Int
  | Direction.up => (x, y - 1)
  | Direction.down => (x, y + 1)
  | Direction.left => (x - 1, y)
  | Direction.right => (x + 1, y)

/-- `startEncounter` creates a fight and pulls all same-map, non-combat,
non-fallen players in.  Go iterates over the registry map in unspecified
order; the registry list order stands in for one such order. -/
def startEncounter (st : GState) (trigger : Player) : GState :=
  let fid := st.nextFightID + 1
  let players := updatePlayer st.players trigger.id fun p =>
    { p with combatTransition := CombatTransitionLen, fightID := fid,
             combatAction := 0, combatTarget := 0 }
  let coop := st.players.filter fun p =>
    p.id ≠ trigger.id ∧ p.mapName = trigger.mapName ∧ p.fightID = 0 ∧ p.dead = false
  let players := coop.foldl
    (fun ps p => updatePlayer ps p.id fun q =>
      { q with fightID := fid, combatTransition := CombatCoopTransLen,
               combatAction := 0, combatTarget := 0 }) players
  let fight := NewFight fid trigger.mapName (trigger.id :: coop.map fun p => p.id)
  { st with players := players, fights := st.fights ++ [fight], nextFightID := fid }

/-- `checkEncounter` triggers a random combat encounter on tall-grass tiles;
`encRoll` models `rand.Intn 100`.  `player` is the registry record of the
player that just moved. -/
def checkEncounter (w : WorldM) (st : GState) (player : Player) (encRoll : Nat) : GState :=
  match w.tileNameAt player.mapName player.x player.y with
  | none => st
  | some tname =>
    if tname ≠ "tall_grass" then st
    else if (encRoll : Int) ≥ EncounterChance then st
    else startEncounter st player

/-- The turn-or-move tail of `processInput`, entered once a directional
action has been decoded for a player outside combat and debug view. -/
def applyDirection (w : WorldM) (st : GState) (player : Player) (dir : Direction)
    (encRoll : Nat) : GState :=
  if player.dir ≠ dir then
    { st with players := updatePlayer st.players player.id fun p => { p with dir := dir } }
  else if player.moveCooldown > 0 then st
  else
    let step := stepDir player.x player.y dir
    if w.canMoveTo player.mapName step.1 step.2 then
      let p1 := { player with
        x := step.1, y := step.2, anim := AnimState.walking,
        animTimer := WalkAnimDuration, moveCooldown := MoveRepeatDelay,
        animTick := 0 }
      match w.portalAt player.mapName step.1 step.2 with
      | some portal =>
          let p2 := { p1 with
            mapName := portal.targetMap, x := portal.targetX, y := portal.targetY }
          { st with players := updatePlayer st.players player.id fun _ => p2 }
      | none =>
          let st := { st with players := updatePlayer st.players player.id fun _ => p1 }
          checkEncounter w st p1 encRoll
    else st

/-- `processInput` dispatches one drained input event: combat routing, debug
toggles, debug pages, and the movement resolver.  `atkRoll` and `encRoll`
model the random rolls of the combat resolver and the encounter check. -/
def processInput (w : WorldM) (st : GState) (ev : InputEvent)
    (atkRoll encRoll : Nat) : GState :=
  match findPlayer st.players ev.playerID with
  | none => st
  | some player =>
    if player.fightID ≠ 0 then
      let r := processCombatInput st.players st.fights player ev.action atkRoll
      { st with players := r.1, fights := r.2 }
    else if ev.action = Action.debug then
      { st with players := updatePlayer st.players player.id fun p =>
          { p with debugView := !p.debugView } }
    else if ev.action = Action.debugTileOverlay then
      { st with players := updatePlayer st.players player.id fun p =>
          { p with debugTileOverlay := !p.debugTileOverlay } }
    else if ev.action = Action.debugCombat then
      if player.fightID = 0 ∧ player.dead = false then startEncounter st player else st
    else if player.debugView then
      match ev.action with
      | Action.left =>
          { st with players := updatePlayer st.players player.id fun p =>
              { p with debugPage := goMod (p.debugPage - 1 + 3) 3 } }
      | Action.right =>
          { st with players := updatePlayer st.players player.id fun p =>
              { p with debugPage := goMod (p.debugPage + 1) 3 } }
      | Action.debugPage1 =>
          { st with players := updatePlayer st.players player.id fun p =>
              { p with debugPage := 0 } }
      | Action.debugPage2 =>
          { st with players := updatePlayer st.players player.id fun p =>
              { p with debugPage := 1 } }
      | Action.debugPage3 =>
          { st with players := updatePlayer st.players player.id fun p =>
              { p with debugPage := 2 } }
      | _ => st
    else if ev.action = Action.debugPage1 ∨ ev.action = Action.debugPage2 ∨
            ev.action = Action.debugPage3 ∨ ev.action = Action.confirm ∨
            ev.action = Action.defend then st
    else
      match dirOfAction ev.action with
      | some dir => applyDirection w st player dir encRoll
      | none => st

/-! ### Concrete sample data used by witnesses and counterexamples -/

/-- A freshly connected player as `InitStats` produces it. -/
def basePlayer : Player :=
  { id := "A", name := "A", x := 0, y := 0, color := 0, mapName := "m",
    dir := Direction.down, anim := AnimState.idle, animFrame := 0, animTimer := 0,
    animTick := 0, moveCooldown := 0, debugView := false, debugPage := 0,
    debugTileOverlay := false, hp := 30, maxHP := 30, stamina := 20, maxStamina := 20,
    mp := 10, maxMP := 10, attack := 6, defense := 3, exp := 0, fightID := 0,
    combatTransition := 0, defending := false, dead := false, combatAction := 0,
    combatTarget := 0 }

/-- A freshly spawned Rat instance. -/
def sampleRat : EnemyInstance := { defn := EnemyRat, hp := 15, id := 0, label := "Rat" }

/-! ### Registry lookup/update lemmas -/

theorem findPlayer_eq_some_id {ps : List Player} {pid : String} {p : Player}
    (h : findPlayer ps pid = some p) : p.id = pid := by
  have := List.find?_some h
  simpa using this

theorem findPlayer_cons_pos {a : Player} {pid : String} (t : List Player)
    (h : a.id = pid) : findPlayer (a :: t) pid = some a := by
  simp [findPlayer, List.find?_cons, h]

theorem findPlayer_cons_neg {a : Player} {pid : String} (t : List Player)
    (h : a.id ≠ pid) : findPlayer (a :: t) pid = findPlayer t pid := by
  simp [findPlayer, List.find?_cons, h]

theorem updatePlayer_cons (a : Player) (t : List Player) (pid : String)
    (g : Player → Player) :
    updatePlayer (a :: t) pid g = (if a.id = pid then g a else a) :: updatePlayer t pid g :=
  rfl

theorem findPlayer_updatePlayer_self (ps : List Player) (pid : String)
    (g : Player → Player) (hid : ∀ p, (g p).id = p.id) :
    findPlayer (updatePlayer ps pid g) pid = (findPlayer ps pid).map g := by
  induction ps with
  | nil => rfl
  | cons a t ih =>
    rw [updatePlayer_cons]
    by_cases h : a.id = pid
    · rw [if_pos h, findPlayer_cons_pos _ (by rw [hid, h]), findPlayer_cons_pos _ h]
      rfl
    · rw [if_neg h, findPlayer_cons_neg _ h, findPlayer_cons_neg _ h]
      exact ih

theorem findPlayer_updatePlayer_ne (ps : List Player) (pid pid' : String)
    (g : Player → Player) (hid : ∀ p, (g p).id = p.id) (h : pid ≠ pid') :
    findPlayer (updatePlayer ps pid g) pid' = findPlayer ps pid' := by
  induction ps with
  | nil => rfl
  | cons a t ih =>
    rw [updatePlayer_cons]
    by_cases ha : a.id = pid
    · rw [if_pos ha,
          findPlayer_cons_neg _ (by rw [hid, ha]; exact h),
          findPlayer_cons_neg _ (by rw [ha]; exact h)]
      exact ih
    · rw [if_neg ha]
      by_cases hc : a.id = pid'
      · rw [findPlayer_cons_pos _ hc, findPlayer_cons_pos _ hc]
      · rw [findPlayer_cons_neg _ hc, findPlayer_cons_neg _ hc]
        exact ih

theorem findPlayer_foldUpd_not_mem (g : Player → Player) (hid : ∀ p, (g p).id = p.id)
    (ids : List String) :
    ∀ (ps : List Player) (pid : String), pid ∉ ids →
      findPlayer (ids.foldl (fun a i => updatePlayer a i g) ps) pid = findPlayer ps pid := by
  induction ids with
  | nil => intro ps pid _; rfl
  | cons a t ih =>
    intro ps pid h
    simp only [List.foldl_cons]
    rw [ih _ pid (fun hm => h (List.mem_cons_of_mem _ hm))]
    exact findPlayer_updatePlayer_ne _ _ _ _ hid (fun hc => h (hc ▸ List.mem_cons_self a t))

theorem findPlayer_foldUpd_mem (g : Player → Player) (hid : ∀ p, (g p).id = p.id)
    (ids : List String) :
    ∀ (ps : List Player) (pid : String), ids.Nodup → pid ∈ ids →
      findPlayer (ids.foldl (fun a i => updatePlayer a i g) ps) pid =
        (findPlayer ps pid).map g := by
  induction ids with
  | nil => intro ps pid _ hmem; cases hmem
  | cons a t ih =>
    intro ps pid hnd hmem
    simp only [List.foldl_cons]
    by_cases hpa : pid = a
    · subst hpa
      have hnotin : pid ∉ t := (List.nodup_cons.mp hnd).1
      rw [findPlayer_foldUpd_not_mem g hid t _ pid hnotin]
      exact findPlayer_updatePlayer_self _ _ _ hid
    · have hmem' : pid ∈ t := by
        rcases List.mem_cons.mp hmem with h | h
        · exact absurd h hpa
        · exact h
      rw [ih _ pid (List.nodup_cons.mp hnd).2 hmem']
      rw [findPlayer_updatePlayer_ne _ _ _ _ hid (fun hc => hpa hc.symm)]

/-! ### Battle-log lemmas -/

theorem addLog_log (f : Fight) (m : String) :
    (f.addLog m).log =
      if (f.log ++ [m]).length > maxLogLines then
        (f.log ++ [m]).drop ((f.log ++ [m]).length - maxLogLines)
      else f.log ++ [m] := rfl

theorem foldl_addLog_drop (f : Fight) (h : f.log = []) (msgs : List String) :
    (msgs.foldl Fight.addLog f).log = msgs.drop (msgs.length - maxLogLines) := by
  induction msgs using List.reverseRecOn with
  | nil => simp [h]
  | append_singleton l m ih =>
    rw [List.foldl_append, List.foldl_cons, List.foldl_nil, addLog_log, ih]
    simp only [maxLogLines, List.length_append, List.length_drop, List.length_singleton]
    by_cases hn : 6 ≤ l.length
    · rw [if_pos (by omega)]
      have e1 : l.length - (l.length - 6) + 1 - 6 = 1 := by omega
      rw [e1, List.drop_append_of_le_length (by rw [List.length_drop]; omega),
          List.drop_drop, List.drop_append_of_le_length (by omega)]
      have e2 : l.length - 6 + 1 = l.length + 1 - 6 := by omega
      rw [e2]
    · rw [if_neg (by omega)]
      have e0 : l.length - 6 = 0 := by omega
      have e0' : l.length + 1 - 6 = 0 := by omega
      rw [e0, e0', List.drop_zero, List.drop_zero]

/-- C9: after any sequence of `AddLog` calls on a fresh Fight (whose log
starts empty), the battle log holds at most `maxLogLines = 6` entries, and
it is exactly the suffix of the appended messages in append order — the
oldest entries are evicted first. -/
theorem battle_log_bounded_fifo (f : Fight) (msgs : List String) (h : f.log = []) :
    (msgs.foldl Fight.addLog f).log = msgs.drop (msgs.length - maxLogLines) ∧
    (msgs.foldl Fight.addLog f).log.length ≤ maxLogLines := by
  refine ⟨foldl_addLog_drop f h msgs, ?_⟩
  rw [foldl_addLog_drop f h msgs, List.length_drop]
  omega

/-- Witness for C9 at a concrete fight and seven messages: the log retains
exactly the last six. -/
theorem battle_log_bounded_fifo_witness :
    (NewFight 1 "m" ["A"]).log = [] ∧
    ((["m1", "m2", "m3", "m4", "m5", "m6", "m7"].foldl Fight.addLog
        (NewFight 1 "m" ["A"])).log =
      ["m1", "m2", "m3", "m4", "m5", "m6", "m7"].drop
        (["m1", "m2", "m3", "m4", "m5", "m6", "m7"].length - maxLogLines) ∧
     (["m1", "m2", "m3", "m4", "m5", "m6", "m7"].foldl Fight.addLog
        (NewFight 1 "m" ["A"])).log.length ≤ maxLogLines) :=
  ⟨rfl, battle_log_bounded_fifo (NewFight 1 "m" ["A"]) _ rfl⟩

/-! ### Damage-formula lemmas -/

theorem ResolveMelee_dmg (attacker : Player) (target : EnemyInstance) (roll : Nat)
    (h : ¬ attacker.stamina < MeleeCost) :
    (ResolveMelee attacker target roll).dmg =
      (if attacker.attack + (roll : Int) - goDiv target.defn.defense 2 < 1 then 1
       else attacker.attack + (roll : Int) - goDiv target.defn.defense 2) := by
  unfold ResolveMelee
  rw [if_neg h]

theorem ResolveEnemyAttack_dmg (enemy : EnemyInstance) (target : Player) (roll : Nat) :
    (ResolveEnemyAttack enemy target roll).2.1 =
      (let base := enemy.defn.attack + (roll : Int) - goDiv target.defense 2
       let base := if base < 1 then 1 else base
       if target.defending then (if goDiv base 2 < 1 then 1 else goDiv base 2)
       else base) := rfl

/-- C5 counterexample: a default attacker (Attack = 6, ample stamina)
hitting a Rat (Defense = 1) with the maximal roll deals 8 damage, outside
the spec's claimed set 5/6/7 (the code subtracts `Defense/2 = 0`, not the
full Defense). -/
theorem melee_damage_not_in_spec_range :
    (ResolveMelee basePlayer sampleRat 2).dmg = 8 ∧
    ¬((ResolveMelee basePlayer sampleRat 2).dmg = 5 ∨
      (ResolveMelee basePlayer sampleRat 2).dmg = 6 ∨
      (ResolveMelee basePlayer sampleRat 2).dmg = 7) := by decide

/-- C5 amended: with Attack = 6 against Defense = 1 and sufficient stamina,
melee damage lies in 6/7/8 for every roll; and whenever the raw total
`Attack + roll − Defense/2` is ≤ 0 the resolver deals exactly 1 (floor). -/
theorem melee_damage_range (attacker a2 : Player) (target t2 : EnemyInstance)
    (roll roll2 : Nat)
    (hroll : roll < 3)
    (hatk : attacker.attack = 6)
    (hsta : MeleeCost ≤ attacker.stamina)
    (hdef : target.defn.defense = 1)
    (hsta2 : MeleeCost ≤ a2.stamina)
    (hlow : a2.attack + (roll2 : Int) - goDiv t2.defn.defense 2 ≤ 0) :
    ((ResolveMelee attacker target roll).dmg = 6 ∨
     (ResolveMelee attacker target roll).dmg = 7 ∨
     (ResolveMelee attacker target roll).dmg = 8) ∧
    (ResolveMelee a2 t2 roll2).dmg = 1 := by
  constructor
  · rw [ResolveMelee_dmg _ _ _ (by unfold MeleeCost at *; omega)]
    rw [hatk, hdef, show goDiv 1 2 = 0 from by decide]
    split_ifs <;> omega
  · rw [ResolveMelee_dmg _ _ _ (by unfold MeleeCost at *; omega)]
    rw [if_pos (by omega)]

/-- Witness for C5's amended theorem at concrete inputs (roll 1, and a
0-Attack attacker whose raw total is 0). -/
theorem melee_damage_range_witness :
    ((1 : Nat) < 3 ∧ basePlayer.attack = 6 ∧ MeleeCost ≤ basePlayer.stamina ∧
     sampleRat.defn.defense = 1 ∧
     MeleeCost ≤ ({ basePlayer with attack := 0 } : Player).stamina ∧
     ({ basePlayer with attack := 0 } : Player).attack + ((0 : Nat) : Int) -
       goDiv sampleRat.defn.defense 2 ≤ 0) ∧
    (((ResolveMelee basePlayer sampleRat 1).dmg = 6 ∨
      (ResolveMelee basePlayer sampleRat 1).dmg = 7 ∨
      (ResolveMelee basePlayer sampleRat 1).dmg = 8) ∧
     (ResolveMelee { basePlayer with attack := 0 } sampleRat 0).dmg = 1) :=
  ⟨by decide,
   melee_damage_range basePlayer { basePlayer with attack := 0 } sampleRat sampleRat 1 0
     (by decide) (by decide) (by decide) (by decide) (by decide) (by decide)⟩

/-- C6: an enemy attack deals `Attack + roll − Defense/2` floored at 1 and,
against a defending target, that value halved and floored at 1 again; the
result is at least 1 for every roll, and a floored base hit of 3 against a
defender becomes exactly 1. -/
theorem enemy_attack_damage (enemy : EnemyInstance) (target : Player) (roll : Nat)
    (hroll : roll < 3) :
    ((ResolveEnemyAttack enemy target roll).2.1 =
      (let base := enemy.defn.attack + (roll : Int) - goDiv target.defense 2
       let base := if base < 1 then 1 else base
       if target.defending then (if goDiv base 2 < 1 then 1 else goDiv base 2)
       else base)) ∧
    1 ≤ (ResolveEnemyAttack enemy target roll).2.1 ∧
    (target.defending = true →
      enemy.defn.attack + (roll : Int) - goDiv target.defense 2 = 3 →
      (ResolveEnemyAttack enemy target roll).2.1 = 1) := by
  refine ⟨ResolveEnemyAttack_dmg enemy target roll, ?_, ?_⟩
  · rw [ResolveEnemyAttack_dmg]
    dsimp only
    split_ifs <;> omega
  · intro hdefending h3
    rw [ResolveEnemyAttack_dmg]
    simp only [h3, hdefending, if_true]
    decide

/-- Witness for C6 at a concrete input: a Rat (Attack 4) with roll 1
against the defending default player (Defense 3, so base = 4, halved to 2). -/
theorem enemy_attack_damage_witness :
    ((1 : Nat) < 3) ∧
    (((ResolveEnemyAttack sampleRat { basePlayer with defending := true } 1).2.1 =
      (let base := sampleRat.defn.attack + ((1 : Nat) : Int) -
         goDiv ({ basePlayer with defending := true } : Player).defense 2
       let base := if base < 1 then 1 else base
       if ({ basePlayer with defending := true } : Player).defending then
         (if goDiv base 2 < 1 then 1 else goDiv base 2)
       else base)) ∧
     1 ≤ (ResolveEnemyAttack sampleRat { basePlayer with defending := true } 1).2.1 ∧
     (({ basePlayer with defending := true } : Player).defending = true →
       sampleRat.defn.attack + ((1 : Nat) : Int) -
         goDiv ({ basePlayer with defending := true } : Player).defense 2 = 3 →
       (ResolveEnemyAttack sampleRat { basePlayer with defending := true } 1).2.1 = 1)) :=
  ⟨by decide, enemy_attack_damage sampleRat { basePlayer with defending := true } 1 (by decide)⟩

/-! ### Stat-range preservation (C3) -/

/-- HP, Stamina and MP each within `[0, max]`. -/
def statsInRange (p : Player) : Prop :=
  0 ≤ p.hp ∧ p.hp ≤ p.maxHP ∧ 0 ≤ p.stamina ∧ p.stamina ≤ p.maxStamina ∧
  0 ≤ p.mp ∧ p.mp ≤ p.maxMP

instance (p : Player) : Decidable (statsInRange p) := by
  unfold statsInRange; exact inferInstance

theorem ResolveMelee_attacker (p : Player) (e : EnemyInstance) (r : Nat) :
    (ResolveMelee p e r).attacker =
      if p.stamina < MeleeCost then p else { p with stamina := p.stamina - MeleeCost } := by
  unfold ResolveMelee; split_ifs <;> rfl

theorem ResolveRanged_attacker (p : Player) (e : EnemyInstance) (r : Nat) :
    (ResolveRanged p e r).attacker =
      if p.stamina < RangedCost then p else { p with stamina := p.stamina - RangedCost } := by
  unfold ResolveRanged; split_ifs <;> rfl

theorem ResolveMagic_attacker (p : Player) (e : EnemyInstance) (r : Nat) :
    (ResolveMagic p e r).attacker =
      if p.mp < MagicCost then p else { p with mp := p.mp - MagicCost } := by
  unfold ResolveMagic; split_ifs <;> rfl

theorem enemy_attack_target_stats (e : EnemyInstance) (p : Player) (r : Nat)
    (h : statsInRange p) :
    statsInRange (ResolveEnemyAttack e p r).1 ∧ 0 ≤ (ResolveEnemyAttack e p r).1.hp := by
  unfold ResolveEnemyAttack statsInRange at *
  dsimp only
  split_ifs <;> dsimp only at * <;> omega

theorem defeatUpd_id (m : String) (x y : Int) :
    ∀ p : Player, (defeatUpd m x y p).id = p.id := fun _ => rfl

theorem victoryUpd_id (tot : Int) : ∀ p : Player, (victoryUpd tot p).id = p.id := by
  intro p; unfold victoryUpd; split_ifs <;> rfl

/-- C3: resource deductions never drive Stamina or MP negative (the
resolvers refuse when short), enemy damage clamps HP at 0 and never raises
it above max, and defeat resolution restores HP/Stamina/MP to exactly the
respective maxima — so every embedded stat mutation preserves
`[0, max]` bounds, hence they hold at every tick boundary. -/
theorem resources_stay_in_range
    (p : Player) (e : EnemyInstance) (rollM rollR rollG rollE : Nat)
    (fight : Fight) (players : List Player) (pid : String) (q : Player)
    (spawnMap : String) (spawnX spawnY : Int)
    (hrange : statsInRange p)
    (hnd : fight.playerIDs.Nodup) (hmem : pid ∈ fight.playerIDs)
    (hfindq : findPlayer players pid = some q) :
    statsInRange (ResolveMelee p e rollM).attacker ∧
    statsInRange (ResolveRanged p e rollR).attacker ∧
    statsInRange (ResolveMagic p e rollG).attacker ∧
    statsInRange (ResolveEnemyAttack e p rollE).1 ∧
    0 ≤ (ResolveEnemyAttack e p rollE).1.hp ∧
    (∃ q', findPlayer (resolveFightDefeat spawnMap spawnX spawnY fight players) pid =
        some q' ∧
      q'.hp = q.maxHP ∧ q'.stamina = q.maxStamina ∧ q'.mp = q.maxMP ∧
      q'.maxHP = q.maxHP ∧ q'.maxStamina = q.maxStamina ∧ q'.maxMP = q.maxMP) := by
  obtain ⟨h1, h2, h3, h4, h5, h6⟩ := hrange
  refine ⟨?_, ?_, ?_, ?_, ?_, ?_⟩
  · rw [ResolveMelee_attacker]
    unfold statsInRange MeleeCost at *
    split_ifs <;> (try dsimp only) <;> omega
  · rw [ResolveRanged_attacker]
    unfold statsInRange RangedCost at *
    split_ifs <;> (try dsimp only) <;> omega
  · rw [ResolveMagic_attacker]
    unfold statsInRange MagicCost at *
    split_ifs <;> (try dsimp only) <;> omega
  · exact (enemy_attack_target_stats e p rollE ⟨h1, h2, h3, h4, h5, h6⟩).1
  · exact (enemy_attack_target_stats e p rollE ⟨h1, h2, h3, h4, h5, h6⟩).2
  · refine ⟨defeatUpd spawnMap spawnX spawnY q, ?_, rfl, rfl, rfl, rfl, rfl, rfl⟩
    unfold resolveFightDefeat
    rw [findPlayer_foldUpd_mem _ (defeatUpd_id spawnMap spawnX spawnY) _ _ _ hnd hmem,
        hfindq]
    rfl

/-- Witness for C3 at a concrete state: the default player, a Rat, and a
one-participant fight being resolved as a defeat. -/
theorem resources_stay_in_range_witness :
    (statsInRange basePlayer ∧
     (NewFight 1 "m" ["A"]).playerIDs.Nodup ∧
     "A" ∈ (NewFight 1 "m" ["A"]).playerIDs ∧
     findPlayer [{ basePlayer with fightID := 1 }] "A" =
       some { basePlayer with fightID := 1 }) ∧
    (statsInRange (ResolveMelee basePlayer sampleRat 0).attacker ∧
     statsInRange (ResolveRanged basePlayer sampleRat 1).attacker ∧
     statsInRange (ResolveMagic basePlayer sampleRat 2).attacker ∧
     statsInRange (ResolveEnemyAttack sampleRat basePlayer 1).1 ∧
     0 ≤ (ResolveEnemyAttack sampleRat basePlayer 1).1.hp ∧
     (∃ q', findPlayer
         (resolveFightDefeat "town" 5 7 (NewFight 1 "m" ["A"])
           [{ basePlayer with fightID := 1 }]) "A" = some q' ∧
       q'.hp = ({ basePlayer with fightID := 1 } : Player).maxHP ∧
       q'.stamina = ({ basePlayer with fightID := 1 } : Player).maxStamina ∧
       q'.mp = ({ basePlayer with fightID := 1 } : Player).maxMP ∧
       q'.maxHP = ({ basePlayer with fightID := 1 } : Player).maxHP ∧
       q'.maxStamina = ({ basePlayer with fightID := 1 } : Player).maxStamina ∧
       q'.maxMP = ({ basePlayer with fightID := 1 } : Player).maxMP)) :=
  ⟨⟨by decide, by decide, by decide, by decide⟩,
   resources_stay_in_range basePlayer sampleRat 0 1 2 1 (NewFight 1 "m" ["A"])
     [{ basePlayer with fightID := 1 }] "A" { basePlayer with fightID := 1 }
     "town" 5 7 (by decide) (by decide) (by decide) (by decide)⟩

/-! ### Victory resolution (C4, C10) -/

theorem victoryUpd_fields (tot : Int) (p : Player) :
    (victoryUpd tot p).hp = p.hp ∧ (victoryUpd tot p).stamina = p.stamina ∧
    (victoryUpd tot p).mp = p.mp ∧ (victoryUpd tot p).x = p.x ∧
    (victoryUpd tot p).y = p.y ∧ (victoryUpd tot p).mapName = p.mapName ∧
    (victoryUpd tot p).dead = false ∧ (victoryUpd tot p).fightID = 0 ∧
    (victoryUpd tot p).defending = false ∧ (victoryUpd tot p).combatAction = 0 ∧
    (victoryUpd tot p).combatTarget = 0 ∧ (victoryUpd tot p).combatTransition = 0 ∧
    (victoryUpd tot p).exp = (if p.dead then p.exp else p.exp + tot) := by
  unfold victoryUpd
  cases hd : p.dead <;> simp [hd]

theorem foldl_exp_sum (es : List EnemyInstance) :
    ∀ a : Int, es.foldl (fun t e => t + e.defn.exp) a =
      a + (es.map fun e => e.defn.exp).sum := by
  induction es with
  | nil => intro a; simp
  | cons e t ih => intro a; simp [List.foldl_cons, ih, List.sum_cons]; ring

theorem findPlayer_resolveFightVictory (fight : Fight) (players : List Player)
    (pid : String) (p : Player)
    (hnd : fight.playerIDs.Nodup) (hmem : pid ∈ fight.playerIDs)
    (hfind : findPlayer players pid = some p) :
    findPlayer (resolveFightVictory fight players) pid =
      some (victoryUpd fight.totalEXP p) := by
  unfold resolveFightVictory
  rw [findPlayer_foldUpd_mem _ (victoryUpd_id fight.totalEXP) _ _ _ hnd hmem, hfind]
  rfl

/-- C4: when a Victory-phase fight's result timer reaches zero, the fight is
marked for removal from the active set, its total EXP is the sum of its
enemies' EXP rewards, and each connected participant gains exactly that sum
if not fallen and nothing if fallen, with the combat linkage (FightID)
cleared either way. -/
theorem victory_resolution_awards_exp
    (fight : Fight) (players : List Player) (pid : String) (p : Player)
    (hph : fight.phase = CombatPhase.victory)
    (ht : fight.resultTimer ≤ 1)
    (hnd : fight.playerIDs.Nodup)
    (hmem : pid ∈ fight.playerIDs)
    (hfind : findPlayer players pid = some p) :
    (tickFightVictory fight players).2.2 = true ∧
    fight.totalEXP = (fight.enemies.map fun e => e.defn.exp).sum ∧
    (∃ q, findPlayer (tickFightVictory fight players).2.1 pid = some q ∧
      (p.dead = false → q.exp = p.exp + fight.totalEXP) ∧
      (p.dead = true → q.exp = p.exp) ∧
      q.fightID = 0) := by
  have hcond : ({ fight with resultTimer := fight.resultTimer - 1 } : Fight).resultTimer ≤ 0 := by
    dsimp only; omega
  refine ⟨?_, ?_, ?_⟩
  · unfold tickFightVictory
    rw [if_pos hcond]
  · unfold Fight.totalEXP
    rw [foldl_exp_sum]
    ring
  · refine ⟨victoryUpd fight.totalEXP p, ?_, ?_, ?_, ?_⟩
    · unfold tickFightVictory
      rw [if_pos hcond]
      exact findPlayer_resolveFightVictory _ _ _ _ hnd hmem hfind
    · intro hd
      rw [(victoryUpd_fields fight.totalEXP p).2.2.2.2.2.2.2.2.2.2.2.2, hd]
      simp
    · intro hd
      rw [(victoryUpd_fields fight.totalEXP p).2.2.2.2.2.2.2.2.2.2.2.2, hd]
      simp
    · exact (victoryUpd_fields fight.totalEXP p).2.2.2.2.2.2.2.1

/-- Witness for C4: a one-participant Victory-phase fight at result timer 1
awards the Rat's 8 EXP to the surviving participant and clears its link. -/
theorem victory_resolution_awards_exp_witness :
    (({ NewFight 1 "m" ["A"] with phase := CombatPhase.victory, resultTimer := 1 } : Fight).phase
        = CombatPhase.victory ∧
     ({ NewFight 1 "m" ["A"] with phase := CombatPhase.victory, resultTimer := 1 } : Fight).resultTimer ≤ 1 ∧
     ({ NewFight 1 "m" ["A"] with phase := CombatPhase.victory, resultTimer := 1 } : Fight).playerIDs.Nodup ∧
     "A" ∈ ({ NewFight 1 "m" ["A"] with phase := CombatPhase.victory, resultTimer := 1 } : Fight).playerIDs ∧
     findPlayer [{ basePlayer with fightID := 1 }] "A" =
       some { basePlayer with fightID := 1 }) ∧
    ((tickFightVictory { NewFight 1 "m" ["A"] with phase := CombatPhase.victory, resultTimer := 1 }
        [{ basePlayer with fightID := 1 }]).2.2 = true ∧
     ({ NewFight 1 "m" ["A"] with phase := CombatPhase.victory, resultTimer := 1 } : Fight).totalEXP =
       (({ NewFight 1 "m" ["A"] with phase := CombatPhase.victory, resultTimer := 1 } : Fight).enemies.map
         fun e => e.defn.exp).sum ∧
     (∃ q, findPlayer (tickFightVictory
         { NewFight 1 "m" ["A"] with phase := CombatPhase.victory, resultTimer := 1 }
         [{ basePlayer with fightID := 1 }]).2.1 "A" = some q ∧
       (({ basePlayer with fightID := 1 } : Player).dead = false →
         q.exp = ({ basePlayer with fightID := 1 } : Player).exp +
           ({ NewFight 1 "m" ["A"] with phase := CombatPhase.victory, resultTimer := 1 } : Fight).totalEXP) ∧
       (({ basePlayer with fightID := 1 } : Player).dead = true →
         q.exp = ({ basePlayer with fightID := 1 } : Player).exp) ∧
       q.fightID = 0)) :=
  ⟨⟨by decide, by decide, by decide, by decide, by decide⟩,
   victory_resolution_awards_exp
     { NewFight 1 "m" ["A"] with phase := CombatPhase.victory, resultTimer := 1 }
     [{ basePlayer with fightID := 1 }] "A" { basePlayer with fightID := 1 }
     (by decide) (by decide) (by decide) (by decide) (by decide)⟩

/-- C10: victory resolution clears every connected participant's combat
fields (FightID, Dead, Defending, CombatAction, CombatTarget,
CombatTransition) but leaves HP, Stamina, MP, position and map unchanged;
a fallen participant in particular keeps its EXP and its (possibly zero)
HP while Dead is reset to false. -/
theorem victory_resolution_frame
    (fight : Fight) (players : List Player) (pid : String) (p : Player)
    (hnd : fight.playerIDs.Nodup)
    (hmem : pid ∈ fight.playerIDs)
    (hfind : findPlayer players pid = some p) :
    ∃ q, findPlayer (resolveFightVictory fight players) pid = some q ∧
      q.hp = p.hp ∧ q.stamina = p.stamina ∧ q.mp = p.mp ∧
      q.x = p.x ∧ q.y = p.y ∧ q.mapName = p.mapName ∧
      q.dead = false ∧ q.fightID = 0 ∧ q.defending = false ∧
      q.combatAction = 0 ∧ q.combatTarget = 0 ∧ q.combatTransition = 0 ∧
      (p.dead = true → q.exp = p.exp) := by
  obtain ⟨e1, e2, e3, e4, e5, e6, e7, e8, e9, e10, e11, e12, e13⟩ :=
    victoryUpd_fields fight.totalEXP p
  refine ⟨victoryUpd fight.totalEXP p,
    findPlayer_resolveFightVictory _ _ _ _ hnd hmem hfind,
    e1, e2, e3, e4, e5, e6, e7, e8, e9, e10, e11, e12, ?_⟩
  intro hd
  rw [e13, hd]
  simp

/-- Witness for C10: a fallen participant of a won one-participant fight
exits with Dead cleared, HP untouched (0 here) and EXP unchanged. -/
theorem victory_resolution_frame_witness :
    ((NewFight 1 "m" ["A"]).playerIDs.Nodup ∧
     "A" ∈ (NewFight 1 "m" ["A"]).playerIDs ∧
     findPlayer [{ basePlayer with fightID := 1, dead := true, hp := 0 }] "A" =
       some { basePlayer with fightID := 1, dead := true, hp := 0 }) ∧
    (∃ q, findPlayer (resolveFightVictory (NewFight 1 "m" ["A"])
        [{ basePlayer with fightID := 1, dead := true, hp := 0 }]) "A" = some q ∧
      q.hp = ({ basePlayer with fightID := 1, dead := true, hp := 0 } : Player).hp ∧
      q.stamina = ({ basePlayer with fightID := 1, dead := true, hp := 0 } : Player).stamina ∧
      q.mp = ({ basePlayer with fightID := 1, dead := true, hp := 0 } : Player).mp ∧
      q.x = ({ basePlayer with fightID := 1, dead := true, hp := 0 } : Player).x ∧
      q.y = ({ basePlayer with fightID := 1, dead := true, hp := 0 } : Player).y ∧
      q.mapName = ({ basePlayer with fightID := 1, dead := true, hp := 0 } : Player).mapName ∧
      q.dead = false ∧ q.fightID = 0 ∧ q.defending = false ∧
      q.combatAction = 0 ∧ q.combatTarget = 0 ∧ q.combatTransition = 0 ∧
      (({ basePlayer with fightID := 1, dead := true, hp := 0 } : Player).dead = true →
        q.exp = ({ basePlayer with fightID := 1, dead := true, hp := 0 } : Player).exp)) :=
  ⟨⟨by decide, by decide, by decide⟩,
   victory_resolution_frame (NewFight 1 "m" ["A"])
     [{ basePlayer with fightID := 1, dead := true, hp := 0 }] "A"
     { basePlayer with fightID := 1, dead := true, hp := 0 }
     (by decide) (by decide) (by decide)⟩

/-! ### Turn-index invariant around RemovePlayer (C1) -/

/-- Acting trigger participant of the C1 scenario (alive, connected). -/
def actingTrigger : Player := { basePlayer with fightID := 1 }

/-- Second participant of the C1 scenario: still connected but fallen. -/
def deadPartner : Player :=
  { basePlayer with id := "B", name := "B", fightID := 1, dead := true }

/-- A two-participant fight mid player turn: the trigger at index 0 is
acting, the partner has fallen in an earlier enemy round. -/
def midTurnFight : Fight :=
  { NewFight 1 "m" ["A", "B"] with
    phase := CombatPhase.playerTurn, turnIndex := 0, turnTimer := 100 }

/-- The scheduler state of the C1 scenario. -/
def midTurnState : GState :=
  { players := [actingTrigger, deadPartner], fights := [midTurnFight],
    nextFightID := 1, saved := [] }

/-- C1 counterexample: when the acting participant disconnects mid player
turn, `RemovePlayer` splices them out without adjusting the turn index, so
the fight remains in the player-turn phase with its turn index referring to
the still-connected but fallen partner — the invariant is violated in the
resulting scheduler state (it persists until the turn timer expires). -/
theorem turn_index_points_at_fallen_after_splice :
    (findFight (glRemovePlayer midTurnState "A").fights 1).map
        (fun f => (f.phase, f.currentTurnPlayerID)) =
      some (CombatPhase.playerTurn, "B") ∧
    (findPlayer (glRemovePlayer midTurnState "A").players "B").map
        (fun p => p.dead) = some true := by decide

theorem findLivingIdx_spec (players : List Player) :
    ∀ (ids : List String) (i j : Nat), findLivingIdx players ids i = some j →
      i ≤ j ∧ j - i < ids.length ∧
      ∃ p, findPlayer players (ids.getD (j - i) "") = some p ∧ p.dead = false := by
  intro ids
  induction ids with
  | nil => intro i j h; exact Option.noConfusion h
  | cons pid rest ih =>
    intro i j h
    unfold findLivingIdx at h
    cases hf : findPlayer players pid with
    | some p =>
      rw [hf] at h
      dsimp only at h
      cases hpd : p.dead with
      | true =>
        rw [hpd] at h
        simp at h
        obtain ⟨h1, h2, p', hp', hd'⟩ := ih (i + 1) j h
        refine ⟨by omega, by simp only [List.length_cons]; omega, p', ?_, hd'⟩
        have hji : j - i = (j - (i + 1)) + 1 := by omega
        rw [hji, List.getD_cons_succ]
        exact hp'
      | false =>
        rw [hpd] at h
        simp at h
        subst h
        refine ⟨le_refl i, by simp, p, ?_, hpd⟩
        simp only [Nat.sub_self, List.getD_cons_zero]
        exact hf
    | none =>
      rw [hf] at h
      dsimp only at h
      obtain ⟨h1, h2, p', hp', hd'⟩ := ih (i + 1) j h
      refine ⟨by omega, by simp only [List.length_cons]; omega, p', ?_, hd'⟩
      have hji : j - i = (j - (i + 1)) + 1 := by omega
      rw [hji, List.getD_cons_succ]
      exact hp'

/-- C1 amended: the invariant holds at the moment the turn is assigned —
whenever `NextPlayerTurn` succeeds on a player-turn fight, the new turn
index is in range and refers to a connected, non-fallen participant.
(`RemovePlayer` does not re-establish it: after a mid-turn splice the index
may refer to a fallen participant, as the counterexample shows, until the
turn advances.) -/
theorem nextPlayerTurn_eq_some (f : Fight) (players : List Player) (i : Nat)
    (hfi : findLivingIdx players (f.playerIDs.drop (f.turnIndex + 1).toNat)
      (f.turnIndex + 1).toNat = some i) :
    f.nextPlayerTurn players =
      ({ f with turnIndex := (i : Int), turnTimer := CombatTurnTimeout },
       updatePlayer players (f.playerIDs.getD i "")
         (fun p => { p with combatAction := 0, combatTarget := 0 }), true) := by
  unfold Fight.nextPlayerTurn
  simp only [hfi]

theorem nextPlayerTurn_eq_none (f : Fight) (players : List Player)
    (hfi : findLivingIdx players (f.playerIDs.drop (f.turnIndex + 1).toNat)
      (f.turnIndex + 1).toNat = none) :
    f.nextPlayerTurn players = (f, players, false) := by
  unfold Fight.nextPlayerTurn
  simp only [hfi]

theorem next_turn_assigns_connected_living (f : Fight) (players : List Player)
    (hph : f.phase = CombatPhase.playerTurn)
    (hsucc : (f.nextPlayerTurn players).2.2 = true) :
    0 ≤ (f.nextPlayerTurn players).1.turnIndex ∧
    (f.nextPlayerTurn players).1.turnIndex <
      ((f.nextPlayerTurn players).1.playerIDs.length : Int) ∧
    ∃ p, findPlayer (f.nextPlayerTurn players).2.1
        ((f.nextPlayerTurn players).1.currentTurnPlayerID) = some p ∧
      p.dead = false := by
  cases hfi : findLivingIdx players (f.playerIDs.drop (f.turnIndex + 1).toNat)
      (f.turnIndex + 1).toNat with
  | none => rw [nextPlayerTurn_eq_none f players hfi] at hsucc; simp at hsucc
  | some i =>
    rw [nextPlayerTurn_eq_some f players i hfi] at hsucc ⊢
    dsimp only
    obtain ⟨hle, hlt, p, hp, hd⟩ := findLivingIdx_spec players _ _ _ hfi
    rw [List.length_drop] at hlt
    generalize hs : (f.turnIndex + 1).toNat = s at hle hlt hp
    have hs0 : 0 ≤ f.turnIndex + 1 → (s : Int) = f.turnIndex + 1 := by
      intro hnn; rw [← hs]; exact Int.toNat_of_nonneg hnn
    have hi : i < f.playerIDs.length := by omega
    have hgd : (f.playerIDs.drop s).getD (i - s) "" = f.playerIDs.getD i "" := by
      have hsum : s + (i - s) = i := by omega
      rw [List.getD_eq_getElem?_getD, List.getD_eq_getElem?_getD, List.getElem?_drop, hsum]
    rw [hgd] at hp
    have hcur : ({ f with turnIndex := (i : Int), turnTimer := CombatTurnTimeout } :
        Fight).currentTurnPlayerID = f.playerIDs.getD i "" := by
      unfold Fight.currentTurnPlayerID
      rw [if_neg (by dsimp only; rw [hph]; simp)]
      rw [if_neg (by dsimp only; push_neg; omega)]
      dsimp only
      rw [Int.toNat_natCast]
    refine ⟨by omega, by omega, ?_⟩
    rw [hcur,
        findPlayer_updatePlayer_self players (f.playerIDs.getD i "")
          (fun q => { q with combatAction := 0, combatTarget := 0 }) (fun q => rfl),
        hp]
    exact ⟨{ p with combatAction := 0, combatTarget := 0 }, rfl, hd⟩

/-- Witness for C1's amended theorem: starting a round on the two-player
scenario fight assigns the turn to the living trigger. -/
theorem next_turn_assigns_connected_living_witness :
    (({ midTurnFight with turnIndex := -1 } : Fight).phase = CombatPhase.playerTurn ∧
     (({ midTurnFight with turnIndex := -1 } : Fight).nextPlayerTurn
        [actingTrigger, deadPartner]).2.2 = true) ∧
    (0 ≤ (({ midTurnFight with turnIndex := -1 } : Fight).nextPlayerTurn
        [actingTrigger, deadPartner]).1.turnIndex ∧
     (({ midTurnFight with turnIndex := -1 } : Fight).nextPlayerTurn
        [actingTrigger, deadPartner]).1.turnIndex <
       ((({ midTurnFight with turnIndex := -1 } : Fight).nextPlayerTurn
         [actingTrigger, deadPartner]).1.playerIDs.length : Int) ∧
     ∃ p, findPlayer (({ midTurnFight with turnIndex := -1 } : Fight).nextPlayerTurn
           [actingTrigger, deadPartner]).2.1
         ((({ midTurnFight with turnIndex := -1 } : Fight).nextPlayerTurn
           [actingTrigger, deadPartner]).1.currentTurnPlayerID) = some p ∧
       p.dead = false) :=
  ⟨⟨by decide, by decide⟩,
   next_turn_assigns_connected_living { midTurnFight with turnIndex := -1 }
     [actingTrigger, deadPartner] (by decide) (by decide)⟩

/-! ### Insufficient-resource rejection (C2) -/

theorem ResolveMelee_not_ok (p : Player) (e : EnemyInstance) (r : Nat)
    (h : p.stamina < MeleeCost) : (ResolveMelee p e r).ok = false := by
  unfold ResolveMelee; rw [if_pos h]

theorem ResolveRanged_not_ok (p : Player) (e : EnemyInstance) (r : Nat)
    (h : p.stamina < RangedCost) : (ResolveRanged p e r).ok = false := by
  unfold ResolveRanged; rw [if_pos h]

theorem ResolveMagic_not_ok (p : Player) (e : EnemyInstance) (r : Nat)
    (h : p.mp < MagicCost) : (ResolveMagic p e r).ok = false := by
  unfold ResolveMagic; rw [if_pos h]

theorem findPlayer_updatePlayer_key (ps : List Player) (pid : String)
    (g : Player → Player) (hid : ∀ p, p.id = pid → (g p).id = p.id) :
    findPlayer (updatePlayer ps pid g) pid = (findPlayer ps pid).map g := by
  induction ps with
  | nil => rfl
  | cons a t ih =>
    rw [updatePlayer_cons]
    by_cases h : a.id = pid
    · rw [if_pos h, findPlayer_cons_pos _ (by rw [hid a h, h]), findPlayer_cons_pos _ h]
      rfl
    · rw [if_neg h, findPlayer_cons_neg _ h, findPlayer_cons_neg _ h]
      exact ih

/-- The rejected-confirm path of `processCombatInput` as an equation: when
the active participant confirms melee/ranged/magic without the resource,
only the target-clamp write-back happens and the fight set is untouched. -/
theorem processCombatInput_insufficient_eq (players : List Player) (fights : List Fight)
    (player : Player) (fight : Fight) (roll : Nat)
    (hff : findFight fights player.fightID = some fight)
    (hph : fight.phase = CombatPhase.playerTurn)
    (htr : player.combatTransition ≤ 0)
    (hdead : player.dead = false)
    (hturn : fight.currentTurnPlayerID = player.id)
    (hle : fight.livingEnemies.length ≠ 0)
    (hact : player.combatAction = 1 ∨ player.combatAction = 2 ∨ player.combatAction = 3)
    (hres1 : player.combatAction = 1 → player.stamina < MeleeCost)
    (hres2 : player.combatAction = 2 → player.stamina < RangedCost)
    (hres3 : player.combatAction = 3 → player.mp < MagicCost) :
    processCombatInput players fights player Action.confirm roll =
      (updatePlayer players player.id (fun _ =>
        if player.combatTarget ≥ (fight.livingEnemies.length : Int) then
          { player with combatTarget := 0 }
        else player), fights) := by
  unfold processCombatInput
  rw [hff]
  dsimp only
  rw [if_neg (by rw [hph]; simp), if_neg (by omega), if_neg (by simp [hdead]),
      if_neg (by rw [hturn]; simp), if_neg hle,
      if_neg (by rcases hact with h | h | h <;> omega)]
  set p2 := (if player.combatTarget ≥ (fight.livingEnemies.length : Int) then
      { player with combatTarget := 0 } else player) with hp2
  have hca : p2.combatAction = player.combatAction := by rw [hp2]; split_ifs <;> rfl
  have hsta : p2.stamina = player.stamina := by rw [hp2]; split_ifs <;> rfl
  have hmp : p2.mp = player.mp := by rw [hp2]; split_ifs <;> rfl
  have hid2 : p2.id = player.id := by rw [hp2]; split_ifs <;> rfl
  rcases hact with h | h | h
  · rw [if_pos (show p2.combatAction = 1 by rw [hca, h]),
        ResolveMelee_not_ok p2 _ _ (by rw [hsta]; exact hres1 h),
        if_pos (by decide), hid2]
  · rw [if_neg (show ¬(p2.combatAction = 1) by rw [hca, h]; decide),
        if_pos (show p2.combatAction = 2 by rw [hca, h]),
        ResolveRanged_not_ok p2 _ _ (by rw [hsta]; exact hres2 h),
        if_pos (by decide), hid2]
  · rw [if_neg (show ¬(p2.combatAction = 1) by rw [hca, h]; decide),
        if_neg (show ¬(p2.combatAction = 2) by rw [hca, h]; decide),
        if_pos (show p2.combatAction = 3 by rw [hca, h]),
        ResolveMagic_not_ok p2 _ _ (by rw [hmp]; exact hres3 h),
        if_pos (by decide), hid2]

/-- C2: a confirm of melee/ranged/magic by the active participant without
the required resource (Stamina < 5 / Stamina < 2 / MP < 5) is rejected: the
fight set is untouched (so the fight's TurnIndex, TurnTimer, Phase, log and
enemy HP are all unchanged — the turn does not advance), and the player
keeps their Stamina, MP, HP, EXP and pending action (only the out-of-range
target clamp may write CombatTarget). -/
theorem insufficient_resource_rejects (players : List Player) (fights : List Fight)
    (player : Player) (fight : Fight) (roll : Nat)
    (hfind : findPlayer players player.id = some player)
    (hff : findFight fights player.fightID = some fight)
    (hph : fight.phase = CombatPhase.playerTurn)
    (htr : player.combatTransition ≤ 0)
    (hdead : player.dead = false)
    (hturn : fight.currentTurnPlayerID = player.id)
    (hle : fight.livingEnemies.length ≠ 0)
    (hact : player.combatAction = 1 ∨ player.combatAction = 2 ∨ player.combatAction = 3)
    (hres1 : player.combatAction = 1 → player.stamina < MeleeCost)
    (hres2 : player.combatAction = 2 → player.stamina < RangedCost)
    (hres3 : player.combatAction = 3 → player.mp < MagicCost) :
    (processCombatInput players fights player Action.confirm roll).2 = fights ∧
    findFight (processCombatInput players fights player Action.confirm roll).2
      player.fightID = some fight ∧
    (∃ q, findPlayer (processCombatInput players fights player Action.confirm roll).1
        player.id = some q ∧
      q.stamina = player.stamina ∧ q.mp = player.mp ∧ q.hp = player.hp ∧
      q.exp = player.exp ∧ q.combatAction = player.combatAction) := by
  rw [processCombatInput_insufficient_eq players fights player fight roll hff hph htr
    hdead hturn hle hact hres1 hres2 hres3]
  refine ⟨rfl, hff, ?_⟩
  rw [findPlayer_updatePlayer_key players player.id _
      (fun q hq => by split_ifs <;> simp [hq]), hfind]
  refine ⟨_, rfl, ?_, ?_, ?_, ?_, ?_⟩ <;> dsimp only <;> split_ifs <;> rfl

/-- Concrete fight for the C2 witness: single participant "A", acting, one
living Rat. -/
def rejectFight : Fight :=
  { NewFight 1 "m" ["A"] with
    phase := CombatPhase.playerTurn, turnIndex := 0, turnTimer := 120 }

/-- Concrete acting player for the C2 witness: melee selected, 3 stamina. -/
def rejectPlayer : Player :=
  { basePlayer with fightID := 1, combatAction := 1, stamina := 3, combatTarget := 5 }

/-- Witness for C2: the melee confirm with 3 stamina is rejected — fight
untouched, stamina/MP/HP/EXP and pending action unchanged. -/
theorem insufficient_resource_rejects_witness :
    (findPlayer [rejectPlayer] rejectPlayer.id = some rejectPlayer ∧
     findFight [rejectFight] rejectPlayer.fightID = some rejectFight ∧
     rejectFight.phase = CombatPhase.playerTurn ∧
     rejectPlayer.combatTransition ≤ 0 ∧
     rejectPlayer.dead = false ∧
     rejectFight.currentTurnPlayerID = rejectPlayer.id ∧
     rejectFight.livingEnemies.length ≠ 0 ∧
     rejectPlayer.combatAction = 1 ∧
     rejectPlayer.stamina < MeleeCost) ∧
    ((processCombatInput [rejectPlayer] [rejectFight] rejectPlayer Action.confirm 2).2 =
        [rejectFight] ∧
     findFight (processCombatInput [rejectPlayer] [rejectFight] rejectPlayer
         Action.confirm 2).2 rejectPlayer.fightID = some rejectFight ∧
     (∃ q, findPlayer (processCombatInput [rejectPlayer] [rejectFight] rejectPlayer
           Action.confirm 2).1 rejectPlayer.id = some q ∧
       q.stamina = rejectPlayer.stamina ∧ q.mp = rejectPlayer.mp ∧
       q.hp = rejectPlayer.hp ∧ q.exp = rejectPlayer.exp ∧
       q.combatAction = rejectPlayer.combatAction)) :=
  ⟨⟨by decide, by decide, by decide, by decide, by decide, by decide, by decide,
    by decide, by decide⟩,
   insufficient_resource_rejects [rejectPlayer] [rejectFight] rejectPlayer rejectFight 2
     (by decide) (by decide) (by decide) (by decide) (by decide) (by decide) (by decide)
     (Or.inl (by decide)) (fun _ => by decide) (fun h => absurd h (by decide))
     (fun h => absurd h (by decide))⟩

/-! ### Overworld input reductions (C7, C8) -/

theorem dirOfAction_cases {a : Action} {d : Direction} (h : dirOfAction a = some d) :
    (a = Action.up ∧ d = Direction.up) ∨ (a = Action.down ∧ d = Direction.down) ∨
    (a = Action.left ∧ d = Direction.left) ∨ (a = Action.right ∧ d = Direction.right) := by
  cases a <;> simp_all [dirOfAction]

/-- Reduction of `processInput` to the movement tail for a directional
event of a player outside combat and debug view. -/
theorem processInput_dir_eq (w : WorldM) (st : GState) (ev : InputEvent)
    (player : Player) (d : Direction) (atkRoll encRoll : Nat)
    (hfind : findPlayer st.players ev.playerID = some player)
    (hfight : player.fightID = 0)
    (hdbg : player.debugView = false)
    (hdir : dirOfAction ev.action = some d) :
    processInput w st ev atkRoll encRoll = applyDirection w st player d encRoll := by
  unfold processInput
  rw [hfind]
  dsimp only
  rw [if_neg (by simp [hfight])]
  rcases dirOfAction_cases hdir with ⟨ha, hd⟩ | ⟨ha, hd⟩ | ⟨ha, hd⟩ | ⟨ha, hd⟩ <;>
    subst hd <;> rw [ha] <;>
    rw [if_neg (by decide), if_neg (by decide), if_neg (by decide),
        if_neg (by simp [hdbg]), if_neg (by decide)] <;>
    dsimp only [dirOfAction]

/-- C7: for a player outside combat and debug view, a directional input
whose direction differs from the current facing only turns the player: the
whole state change is that one facing update (so X, Y, MapName and
MoveCooldown are untouched), and the result does not depend on the World
collaborator at all — no walkability, portal or encounter query happens. -/
theorem turning_changes_only_facing (w : WorldM) (st : GState) (ev : InputEvent)
    (player : Player) (d : Direction) (atkRoll encRoll : Nat)
    (hfind : findPlayer st.players ev.playerID = some player)
    (hfight : player.fightID = 0)
    (hdbg : player.debugView = false)
    (hdir : dirOfAction ev.action = some d)
    (hne : player.dir ≠ d) :
    processInput w st ev atkRoll encRoll =
      { st with
        players := updatePlayer st.players player.id (fun p => { p with dir := d }) } ∧
    findPlayer (processInput w st ev atkRoll encRoll).players ev.playerID =
      some { player with dir := d } ∧
    (∀ w' : WorldM, processInput w' st ev atkRoll encRoll =
      processInput w st ev atkRoll encRoll) := by
  have heq : ∀ w' : WorldM, processInput w' st ev atkRoll encRoll =
      { st with
        players := updatePlayer st.players player.id (fun p => { p with dir := d }) } := by
    intro w'
    rw [processInput_dir_eq w' st ev player d atkRoll encRoll hfind hfight hdbg hdir]
    unfold applyDirection
    rw [if_pos hne]
  have hpid := findPlayer_eq_some_id hfind
  refine ⟨heq w, ?_, fun w' => (heq w').trans (heq w).symm⟩
  rw [heq w]
  dsimp only
  have hfind' : findPlayer st.players player.id = some player := by
    rw [hpid]; exact hfind
  rw [← hpid,
      findPlayer_updatePlayer_self st.players player.id
        (fun p => { p with dir := d }) (fun q => rfl),
      hfind']
  rfl

/-- A world with nothing in it, for witnesses. -/
def plainWorld : WorldM :=
  { canMoveTo := fun _ _ _ => true, portalAt := fun _ _ _ => Option.none,
    tileNameAt := fun _ _ _ => Option.none, spawnMap := "m", spawnX := 0, spawnY := 0 }

/-- The C7/C8 witness state: the single default player (facing down). -/
def soloSt : GState :=
  { players := [basePlayer], fights := [], nextFightID := 0, saved := [] }

/-- Witness for C7: pressing right while facing down only turns the player. -/
theorem turning_changes_only_facing_witness :
    (findPlayer soloSt.players "A" = some basePlayer ∧
     basePlayer.fightID = 0 ∧ basePlayer.debugView = false ∧
     dirOfAction Action.right = some Direction.right ∧
     basePlayer.dir ≠ Direction.right) ∧
    (processInput plainWorld soloSt { playerID := "A", action := Action.right } 0 0 =
       { soloSt with
         players := updatePlayer soloSt.players basePlayer.id
           (fun p => { p with dir := Direction.right }) } ∧
     findPlayer (processInput plainWorld soloSt
         { playerID := "A", action := Action.right } 0 0).players "A" =
       some { basePlayer with dir := Direction.right } ∧
     (∀ w' : WorldM, processInput w' soloSt { playerID := "A", action := Action.right } 0 0 =
       processInput plainWorld soloSt { playerID := "A", action := Action.right } 0 0)) :=
  ⟨⟨by decide, by decide, by decide, by decide, by decide⟩,
   turning_changes_only_facing plainWorld soloSt
     { playerID := "A", action := Action.right } basePlayer Direction.right 0 0
     (by decide) (by decide) (by decide) (by decide) (by decide)⟩

/-! ### Position change iff walkable (C8) -/

/-- The position-relevant fields of a player. -/
def posOf (p : Player) : Int × Int × String := (p.x, p.y, p.mapName)

theorem findPlayer_updatePlayer_pos (ps : List Player) (pid : String)
    (g : Player → Player)
    (hg : ∀ p, (g p).id = p.id ∧ posOf (g p) = posOf p) (pid' : String) :
    (findPlayer (updatePlayer ps pid g) pid').map posOf =
      (findPlayer ps pid').map posOf := by
  induction ps with
  | nil => rfl
  | cons a t ih =>
    rw [updatePlayer_cons]
    by_cases h : a.id = pid
    · rw [if_pos h]
      by_cases h2 : a.id = pid'
      · rw [findPlayer_cons_pos _ (((hg a).1).trans h2), findPlayer_cons_pos _ h2]
        simp only [Option.map_some']
        rw [(hg a).2]
      · rw [findPlayer_cons_neg _ (by rw [(hg a).1]; exact h2),
            findPlayer_cons_neg _ h2]
        exact ih
    · rw [if_neg h]
      by_cases h2 : a.id = pid'
      · rw [findPlayer_cons_pos _ h2, findPlayer_cons_pos _ h2]
      · rw [findPlayer_cons_neg _ h2, findPlayer_cons_neg _ h2]
        exact ih

theorem findPlayer_foldUpd_pos (L : List Player) (g : Player → Player)
    (hg : ∀ p, (g p).id = p.id ∧ posOf (g p) = posOf p) :
    ∀ (ps : List Player) (pid' : String),
      (findPlayer (L.foldl (fun a q => updatePlayer a q.id g) ps) pid').map posOf =
        (findPlayer ps pid').map posOf := by
  induction L with
  | nil => intro ps pid'; rfl
  | cons b t ih =>
    intro ps pid'
    rw [List.foldl_cons, ih]
    exact findPlayer_updatePlayer_pos ps b.id g hg pid'

theorem findPlayer_startEncounter_pos (st : GState) (trigger : Player) (pid' : String) :
    (findPlayer (startEncounter st trigger).players pid').map posOf =
      (findPlayer st.players pid').map posOf := by
  unfold startEncounter
  dsimp only
  rw [findPlayer_foldUpd_pos _
        (fun q => { q with
          fightID := st.nextFightID + 1, combatTransition := CombatCoopTransLen,
          combatAction := 0, combatTarget := 0 })
        (fun p => ⟨rfl, rfl⟩),
      findPlayer_updatePlayer_pos _ trigger.id
        (fun p => { p with
          combatTransition := CombatTransitionLen, fightID := st.nextFightID + 1,
          combatAction := 0, combatTarget := 0 })
        (fun p => ⟨rfl, rfl⟩)]

theorem findPlayer_checkEncounter_pos (w : WorldM) (st : GState) (player : Player)
    (encRoll : Nat) (pid' : String) :
    (findPlayer (checkEncounter w st player encRoll).players pid').map posOf =
      (findPlayer st.players pid').map posOf := by
  unfold checkEncounter
  cases h : w.tileNameAt player.mapName player.x player.y with
  | none => rfl
  | some tname =>
    dsimp only
    split_ifs <;> first
      | rfl
      | exact findPlayer_startEncounter_pos st player pid'

theorem stepDir_ne (x y : Int) (d : Direction) :
    ¬((stepDir x y d).1 = x ∧ (stepDir x y d).2 = y) := by
  cases d <;> dsimp only [stepDir] <;> omega

/-- A world whose only feature is a portal at ("m", 1, 0) leading straight
back to ("m", 0, 0); every tile is walkable. -/
def loopPortalWorld : WorldM :=
  { canMoveTo := fun _ _ _ => true,
    portalAt := fun m x y =>
      if m = "m" ∧ x = 1 ∧ y = 0 then
        some { x := 1, y := 0, targetMap := "m", targetX := 0, targetY := 0 }
      else Option.none,
    tileNameAt := fun _ _ _ => Option.none,
    spawnMap := "m", spawnX := 0, spawnY := 0 }

/-- The default player already facing right at the origin of map "m". -/
def eastFacing : Player := { basePlayer with dir := Direction.right }

/-- A state with the single east-facing player. -/
def loopSt : GState :=
  { players := [eastFacing], fights := [], nextFightID := 0, saved := [] }

/-- C8 counterexample: the destination tile is reported walkable and the
move intent is processed (facing matches, no cooldown), yet the player's
position is unchanged — the portal at the destination teleports straight
back to the starting map and coordinates, so "position changes iff
walkable" fails as stated. -/
theorem walkable_move_yet_position_unchanged :
    loopPortalWorld.canMoveTo eastFacing.mapName 1 0 = true ∧
    eastFacing.dir = Direction.right ∧ eastFacing.moveCooldown = 0 ∧
    ((processInput loopPortalWorld loopSt
        { playerID := "A", action := Action.right } 0 0).players.map
      (fun p => (p.x, p.y, p.mapName))) =
      [(eastFacing.x, eastFacing.y, eastFacing.mapName)] := by decide

/-- C8 amended: for a processed move intent (directional input, facing
already matches, cooldown elapsed) of a player outside combat and debug
view, the player's position (x, y, map) changes iff the destination was
reported walkable by the World collaborator — provided any portal at the
destination does not teleport straight back to the original map and
coordinates. -/
theorem move_changes_position_iff_walkable (w : WorldM) (st : GState) (ev : InputEvent)
    (player : Player) (d : Direction) (atkRoll encRoll : Nat)
    (hfind : findPlayer st.players ev.playerID = some player)
    (hfight : player.fightID = 0)
    (hdbg : player.debugView = false)
    (hdir : dirOfAction ev.action = some d)
    (hfacing : player.dir = d)
    (hcd : player.moveCooldown ≤ 0)
    (hportal : ∀ portal, w.portalAt player.mapName (stepDir player.x player.y d).1
        (stepDir player.x player.y d).2 = some portal →
      ¬(portal.targetX = player.x ∧ portal.targetY = player.y ∧
        portal.targetMap = player.mapName)) :
    ∃ q, findPlayer (processInput w st ev atkRoll encRoll).players ev.playerID =
        some q ∧
      (¬(q.x = player.x ∧ q.y = player.y ∧ q.mapName = player.mapName) ↔
        w.canMoveTo player.mapName (stepDir player.x player.y d).1
          (stepDir player.x player.y d).2 = true) := by
  have hpid := findPlayer_eq_some_id hfind
  have hfind' : findPlayer st.players player.id = some player := by
    rw [hpid]; exact hfind
  rw [processInput_dir_eq w st ev player d atkRoll encRoll hfind hfight hdbg hdir]
  unfold applyDirection
  rw [if_neg (by simp [hfacing]), if_neg (by omega)]
  dsimp only
  cases hcm : w.canMoveTo player.mapName (stepDir player.x player.y d).1
      (stepDir player.x player.y d).2 with
  | false =>
    rw [if_neg (by simp)]
    exact ⟨player, hfind, iff_of_false (by simp) (by simp)⟩
  | true =>
    rw [if_pos rfl]
    cases hpa : w.portalAt player.mapName (stepDir player.x player.y d).1
        (stepDir player.x player.y d).2 with
    | some portal =>
      dsimp only
      rw [← hpid, findPlayer_updatePlayer_key st.players player.id, hfind']
      · exact ⟨_, rfl, iff_of_true
          (fun hq => hportal portal hpa ⟨hq.1, hq.2.1, hq.2.2⟩) rfl⟩
      · exact fun q hq => by rw [hq]
    | none =>
      dsimp only
      set p1 : Player := { player with
        x := (stepDir player.x player.y d).1, y := (stepDir player.x player.y d).2,
        anim := AnimState.walking, animTimer := WalkAnimDuration,
        moveCooldown := MoveRepeatDelay, animTick := 0 } with hp1
      have hfp1 : findPlayer (updatePlayer st.players player.id (fun _ => p1))
          ev.playerID = some p1 := by
        rw [← hpid, findPlayer_updatePlayer_key st.players player.id (fun _ => p1)
            (fun q hq => by rw [hp1, hq]), hfind']
        rfl
      have hx := findPlayer_checkEncounter_pos w
        { st with players := updatePlayer st.players player.id (fun _ => p1) }
        p1 encRoll ev.playerID
      rw [show ({ st with
            players := updatePlayer st.players player.id (fun _ => p1) } : GState).players =
          updatePlayer st.players player.id (fun _ => p1) from rfl, hfp1] at hx
      simp only [Option.map_some'] at hx
      obtain ⟨q, hq, hpos⟩ := Option.map_eq_some'.mp hx
      refine ⟨q, hq, iff_of_true ?_ rfl⟩
      rintro ⟨h1, h2, h3⟩
      have hqx : q.x = (stepDir player.x player.y d).1 := by
        have := congrArg Prod.fst hpos
        simpa [posOf, hp1] using this
      have hqy : q.y = (stepDir player.x player.y d).2 := by
        have := congrArg (fun t => t.2.1) hpos
        simpa [posOf, hp1] using this
      exact (stepDir_ne player.x player.y d) ⟨hqx.symm.trans h1, hqy.symm.trans h2⟩

/-- Witness for C8's amended theorem: in a portal-free, fully walkable
world the processed move changes the east-facing player's position. -/
theorem move_changes_position_iff_walkable_witness :
    (findPlayer loopSt.players "A" = some eastFacing ∧ eastFacing.fightID = 0 ∧
     eastFacing.debugView = false ∧ dirOfAction Action.right = some Direction.right ∧
     eastFacing.dir = Direction.right ∧ eastFacing.moveCooldown ≤ 0) ∧
    (∃ q, findPlayer (processInput plainWorld loopSt
        { playerID := "A", action := Action.right } 0 0).players "A" = some q ∧
      (¬(q.x = eastFacing.x ∧ q.y = eastFacing.y ∧ q.mapName = eastFacing.mapName) ↔
        plainWorld.canMoveTo eastFacing.mapName
          (stepDir eastFacing.x eastFacing.y Direction.right).1
          (stepDir eastFacing.x eastFacing.y Direction.right).2 = true)) :=
  ⟨⟨by decide, by decide, by decide, by decide, by decide, by decide⟩,
   move_changes_position_iff_walkable plainWorld loopSt
     { playerID := "A", action := Action.right } eastFacing Direction.right 0 0
     (by decide) (by decide) (by decide) (by decide) (by decide) (by decide)
     (fun portal h => by simp [plainWorld] at h)⟩

end HappyPlace
